import Mathlib

/-!
Verification of the transport-logger stop/event classification core.

The definitions below are a shallow embedding of the PoC detector code
(`StopDetectorPoC` motion variant and audio variant): route construction
(`getStationsOnRoute`), the motion classifier (`handleMotion`) with its
stop-confirmation gate (`confirmStop`), the door-chime detector (`chimeTick`),
and the speech announcement matcher (`matchStationInText`, `onSpeechResult`).

Modelling conventions:
- timestamps (`Date.now()` milliseconds) are integers (`Int`);
- scalar samples, variances and dB levels are exact rationals (`ℚ`) in place
  of JS floating-point numbers;
- the accelerometer magnitude `sqrt(x²+y²+z²)` is computed upstream of the
  classifier; the classifier consumes the magnitude itself, so it is the
  input here;
- a `DetectedStop`'s display time keeps the raw stop-start timestamp instead
  of the locale-formatted `HH:MM:SS` string;
- the JS `Set<string>` of matched stations is a list with membership tests.
-/

namespace TransportLogger

/-- A station of the static reference dataset: identifier, display name,
line membership. The dataset itself is external, so stations are a parameter
of the route functions. -/
structure Station where
  id : String
  name : String
  line : String
deriving DecidableEq

/-- JS `Array.prototype.findIndex`, with `none` for the `-1` sentinel. -/
def findIndex (p : Station → Bool) : List Station → Option Nat
  | [] => none
  | s :: rest => if p s then some 0 else (findIndex p rest).map (· + 1)

/-- JS `Array.prototype.slice(a, b)` for `a ≤ b` within bounds. -/
def jsSlice (l : List Station) (a b : Nat) : List Station :=
  (l.drop a).take (b - a)

/-- `getStationsOnRoute` from the PoC: filter the line's stations, locate
origin and destination, slice between them, reversing when the origin comes
after the destination; empty when either endpoint is missing. -/
def getStationsOnRoute (stations : List Station) (lineId originId destinationId : String) :
    List Station :=
  let lineStations := stations.filter (fun s => s.line == lineId)
  match findIndex (fun s => s.id == originId) lineStations,
        findIndex (fun s => s.id == destinationId) lineStations with
  | some originIdx, some destIdx =>
      if originIdx < destIdx then
        jsSlice lineStations originIdx (destIdx + 1)
      else
        (jsSlice lineStations destIdx (originIdx + 1)).reverse
  | _, _ => []

-- Constants of the motion detector (part_000 lines 14-20).

def WINDOW_SIZE : Nat := 60
def STOP_THRESHOLD : ℚ := 3/10
def MOVE_THRESHOLD : ℚ := 1/2
def MIN_STOP_DURATION : Nat := 8
def MIN_MOVE_DURATION : Nat := 10
def MIN_STOP_MS : Int := 15000
def MIN_GAP_MS : Int := 60000

inductive MotionState where
  | idle
  | moving
  | stopped
deriving DecidableEq

/-- A confirmed stop entry (`DetectedStop` in the source); `time` keeps the
raw stop-start timestamp. -/
structure DetectedStop where
  index : Nat
  stationName : String
  time : Int
deriving DecidableEq

/-- The mutable refs and displayed state of the motion detector session. -/
structure MotionSt where
  buffer : List ℚ
  state : MotionState
  stateCounter : Nat
  stopCount : Nat
  variance : ℚ
  stopStartTime : Int
  lastConfirmedStop : Int
  pendingStop : Bool
  detectedStops : List DetectedStop
  ignoredStops : Nat
deriving DecidableEq

/-- The state set up by `handleStart`. -/
def initMotionSt : MotionSt where
  buffer := []
  state := .idle
  stateCounter := 0
  stopCount := 0
  variance := 0
  stopStartTime := 0
  lastConfirmedStop := 0
  pendingStop := false
  detectedStops := []
  ignoredStops := 0

/-- Station-name lookup inside `confirmStop`: `route[stopIdx].name` when in
range, otherwise the synthetic beyond-route placeholder string. -/
def assignStation (route : List Station) (stopIdx : Nat) : String :=
  if h : stopIdx < route.length then (route.get ⟨stopIdx, h⟩).name
  else "Stop #" ++ toString (stopIdx + 1) ++ " (beyond route)"

/-- The gate condition of `confirmStop` (part_000 line 151): the stop lasted
at least `MIN_STOP_MS`, and either no stop was ever confirmed
(`lastConfirmedStopRef.current === 0`) or the stop began at least
`MIN_GAP_MS` after the last confirmation. -/
def confirmCond (now : Int) (st : MotionSt) : Prop :=
  now - st.stopStartTime ≥ MIN_STOP_MS ∧
    (st.lastConfirmedStop = 0 ∨ st.stopStartTime - st.lastConfirmedStop ≥ MIN_GAP_MS)

instance (now : Int) (st : MotionSt) : Decidable (confirmCond now st) := by
  unfold confirmCond; infer_instance

/-- The stop-confirmation gate (`confirmStop`, part_000 lines 146-170). -/
def confirmStop (route : List Station) (now : Int) (st : MotionSt) : MotionSt :=
  let stopTime := st.stopStartTime
  if confirmCond now st then
    let stopIdx := st.stopCount + 1
    { st with
      stopCount := stopIdx
      lastConfirmedStop := now
      pendingStop := false
      detectedStops := st.detectedStops ++
        [{ index := stopIdx, stationName := assignStation route stopIdx, time := stopTime }] }
  else
    { st with ignoredStops := st.ignoredStops + 1, pendingStop := false }

/-- Population variance of the window contents, as computed inline in
`handleMotion` (mean, then mean of squared deviations; `(b - mean) ** 2`
is written as an explicit product). -/
def windowVariance (buffer : List ℚ) : ℚ :=
  let mean := buffer.sum / buffer.length
  (buffer.map (fun b => (b - mean) * (b - mean))).sum / buffer.length

/-- Buffer update of `handleMotion`: push the new magnitude, then shift the
oldest sample out when the capacity is exceeded. -/
def pushSample (buffer : List ℚ) (magnitude : ℚ) : List ℚ :=
  let b := buffer ++ [magnitude]
  if b.length > WINDOW_SIZE then b.tail else b

/-- One motion sample (`handleMotion`, part_000 lines 115-207), from the
magnitude onward: buffer update, warm-up early return, variance, and the
two-threshold hysteresis state machine with the stop-confirmation gate. -/
def handleMotion (route : List Station) (now : Int) (magnitude : ℚ) (st : MotionSt) : MotionSt :=
  let buffer := pushSample st.buffer magnitude
  if buffer.length < WINDOW_SIZE then { st with buffer := buffer }
  else
    let v := windowVariance buffer
    let st := { st with buffer := buffer, variance := v }
    let prevState := st.state
    if v < STOP_THRESHOLD then
      if prevState ≠ MotionState.stopped then
        let c := st.stateCounter + 1
        if c ≥ MIN_STOP_DURATION then
          let st := { st with state := .stopped, stateCounter := 0 }
          if prevState = MotionState.moving then
            { st with stopStartTime := now, pendingStop := true }
          else st
        else { st with stateCounter := c }
      else
        let st := { st with stateCounter := 0 }
        if st.pendingStop ∧ now - st.stopStartTime ≥ MIN_STOP_MS then
          confirmStop route now st
        else st
    else if v > MOVE_THRESHOLD then
      if prevState ≠ MotionState.moving then
        let c := st.stateCounter + 1
        if c ≥ MIN_MOVE_DURATION then
          let st := if st.pendingStop then confirmStop route now st else st
          { st with state := .moving, stateCounter := 0 }
        else { st with stateCounter := c }
      else { st with stateCounter := 0 }
    else st

/-- A whole sample stream: timestamps paired with magnitudes, folded through
`handleMotion`. -/
def runMotion (route : List Station) (samples : List (Int × ℚ)) (st : MotionSt) : MotionSt :=
  samples.foldl (fun s p => handleMotion route p.1 p.2 s) st

-- Constants of the door-chime detector (part_000 lines 353-356).

def CHIME_THRESHOLD_DB : ℚ := -35
def CHIME_MIN_DURATION_MS : Int := 500

/-- The chime detector's refs (`chimeStartRef`, `chimeActiveRef`) plus the
emitted-event log (`chimeCount` and the times at which chime events were
added to the event log). -/
structure ChimeSt where
  chimeStart : Int
  chimeActive : Bool
  chimeCount : Nat
  chimeEvents : List Int
deriving DecidableEq

def initChimeSt : ChimeSt where
  chimeStart := 0
  chimeActive := false
  chimeCount := 0
  chimeEvents := []

/-- One polling tick of the chime detector (`tick`, part_000 lines 501-536),
from the band-average `avgDb` onward. The source's
`setTimeout(() => setChimeDetected(false), 2000)` only clears the UI flash
flag `chimeDetected`; it touches none of the detection state modelled here. -/
def chimeTick (now : Int) (avgDb : ℚ) (st : ChimeSt) : ChimeSt :=
  if avgDb > CHIME_THRESHOLD_DB then
    if st.chimeActive = false then
      { st with chimeStart := now, chimeActive := true }
    else if now - st.chimeStart ≥ CHIME_MIN_DURATION_MS then
      { st with chimeCount := st.chimeCount + 1
                chimeEvents := st.chimeEvents ++ [now]
                chimeActive := false }
    else st
  else { st with chimeActive := false }

/-- A sequence of polling ticks: times paired with band-energy levels. -/
def runChime (ticks : List (Int × ℚ)) (st : ChimeSt) : ChimeSt :=
  ticks.foldl (fun s p => chimeTick p.1 p.2 s) st

-- Speech announcement matching (part_000 lines 320-347, 438-453).
-- Text is handled as lists of characters; `toLowerCase` is a character map,
-- `includes` is a substring test, and `split(/\s+/)` is a whitespace split
-- (splitting on space runs; the leading empty piece JS would keep is dropped,
-- which is invisible through the `length ≥ 3` filter that follows).

def lowerChars (l : List Char) : List Char := l.map Char.toLower

/-- Does `l` start with `pre`? -/
def startsWithChars : List Char → List Char → Bool
  | _, [] => true
  | [], _ :: _ => false
  | c :: cs, d :: ds => c == d && startsWithChars cs ds

/-- JS `hay.includes(needle)`: `needle` occurs contiguously in `hay`. -/
def jsIncludes : List Char → List Char → Bool
  | [], needle => needle.isEmpty
  | c :: rest, needle => startsWithChars (c :: rest) needle || jsIncludes rest needle

def splitWordsAux : List Char → List Char → List (List Char)
  | [], acc => if acc.isEmpty then [] else [acc.reverse]
  | c :: rest, acc =>
      if c == ' ' then
        if acc.isEmpty then splitWordsAux rest []
        else acc.reverse :: splitWordsAux rest []
      else splitWordsAux rest (c :: acc)

/-- Split into whitespace-separated words. -/
def splitWords (l : List Char) : List (List Char) := splitWordsAux l []

/-- An entry of `buildStationKeywords`: station id, display name, and the
lowercase words of length ≥ 3 from the name. -/
structure StationKeywords where
  id : String
  name : String
  keywords : List (List Char)
deriving DecidableEq

/-- `buildStationKeywords` (part_000 lines 323-330). -/
def buildStationKeywords (routeStations : List Station) : List StationKeywords :=
  routeStations.map (fun s =>
    { id := s.id
      name := s.name
      keywords := (splitWords (lowerChars s.name.toList)).filter
        (fun w => decide (w.length ≥ 3)) })

/-- Insert into a list sorted by decreasing name length, before the first
strictly shorter name (so equal lengths keep their original order). -/
def insertByNameLen (a : StationKeywords) : List StationKeywords → List StationKeywords
  | [] => [a]
  | b :: rest =>
      if a.name.length ≥ b.name.length then a :: b :: rest
      else b :: insertByNameLen a rest

/-- The stable sort `[...stationKeywords].sort((a, b) => b.name.length -
a.name.length)` of the source (JS sort is stable), as insertion sort. -/
def sortByNameLenDesc : List StationKeywords → List StationKeywords
  | [] => []
  | a :: rest => insertByNameLen a (sortByNameLenDesc rest)

/-- The station loop of `matchStationInText`: full-name substring test, then
the ≥ 4-character keyword tests, then the next station. -/
def matchStationLoop (lower : List Char) : List StationKeywords → Option StationKeywords
  | [] => none
  | s :: rest =>
      if jsIncludes lower (lowerChars s.name.toList) then some s
      else if s.keywords.any (fun kw => decide (kw.length ≥ 4) && jsIncludes lower kw) then
        some s
      else matchStationLoop lower rest

/-- `matchStationInText` (part_000 lines 332-347). -/
def matchStationInText (text : String) (stationKeywords : List StationKeywords) :
    Option StationKeywords :=
  matchStationLoop (lowerChars text.toList) (sortByNameLenDesc stationKeywords)

/-- The session's speech-match state: `matchedStationsRef` (a `Set<string>`,
as a list with membership tests) and the `speechMatches` display list. -/
structure SpeechSt where
  matchedStations : List String
  speechMatches : List String
deriving DecidableEq

def initSpeechSt : SpeechSt where
  matchedStations := []
  speechMatches := []

/-- The station-matching tail of `recognition.onresult` (part_000 lines
445-452), applied to the latest transcript fragment. -/
def onSpeechResult (stationKeywords : List StationKeywords) (st : SpeechSt)
    (latest : String) : SpeechSt :=
  match matchStationInText latest stationKeywords with
  | some m =>
      if st.matchedStations.contains m.id then st
      else
        { matchedStations := st.matchedStations ++ [m.id]
          speechMatches := st.speechMatches ++ [m.id] }
  | none => st

/-- A sequence of transcript fragments folded through `onSpeechResult`. -/
def runSpeech (stationKeywords : List StationKeywords) (frags : List String)
    (st : SpeechSt) : SpeechSt :=
  frags.foldl (onSpeechResult stationKeywords) st

-- Concrete fixtures used by witnesses, counterexamples and scenario parts.

/-- 54 still samples and 5 noisier ones; pushing one more `2` gives a full
window of variance 9/25 = 0.36, strictly inside the hysteresis gap. -/
def exBuf : List ℚ := List.replicate 54 0 ++ List.replicate 5 2

def exBuf60 : List ℚ := List.replicate 54 0 ++ List.replicate 6 2

/-- A mid-session state: `moving`, with a stopped-candidate count of 3. -/
def exSt2 : MotionSt :=
  { initMotionSt with buffer := exBuf, state := .moving, stateCounter := 3 }

def r0 : Station := ⟨"s0", "Origin", "L1"⟩
def r1 : Station := ⟨"s1", "First", "L1"⟩
def r2 : Station := ⟨"s2", "Second", "L1"⟩
def r3 : Station := ⟨"s3", "Third", "L1"⟩
def r4 : Station := ⟨"s4", "Fourth", "L1"⟩

/-- A five-station route. -/
def route5 : List Station := [r0, r1, r2, r3, r4]

/-- A pending stop that qualifies: 100 s in, lasting 20 s at evaluation. -/
def scenSt1 : MotionSt := { initMotionSt with stopStartTime := 100000, pendingStop := true }

def scenSt2 : MotionSt :=
  { confirmStop route5 120000 scenSt1 with stopStartTime := 200000, pendingStop := true }

def scenSt3 : MotionSt :=
  { confirmStop route5 220000 scenSt2 with stopStartTime := 300000, pendingStop := true }

def scenSt4 : MotionSt :=
  { confirmStop route5 320000 scenSt3 with stopStartTime := 400000, pendingStop := true }

def scenSt5 : MotionSt :=
  { confirmStop route5 420000 scenSt4 with stopStartTime := 500000, pendingStop := true }

/-- A second qualifying stop too soon: it starts 30 s after the first was
confirmed, and lasts 20 s when evaluated. -/
def soonSt : MotionSt :=
  { confirmStop route5 120000 scenSt1 with stopStartTime := 150000, pendingStop := true }

/-- Polling ticks every 100 ms with the band energy at −10 dBFS throughout. -/
def cexTicks : List (Int × ℚ) :=
  [(0, -10), (100, -10), (200, -10), (300, -10), (400, -10), (500, -10),
   (600, -10), (700, -10), (800, -10), (900, -10), (1000, -10), (1100, -10)]

def stA : Station := ⟨"a", "Alpha Beta", "L1"⟩
def stG : Station := ⟨"g", "Gamma", "L1"⟩

def exKeywords : List StationKeywords := buildStationKeywords [stA, stG]

-- Helper lemmas.

theorem runMotion_short (route : List Station) :
    ∀ (samples : List (Int × ℚ)) (st : MotionSt),
      st.buffer.length + samples.length < WINDOW_SIZE →
      runMotion route samples st = { st with buffer := st.buffer ++ samples.map Prod.snd } := by
  intro samples
  induction samples with
  | nil => intro st _; simp [runMotion]
  | cons p rest ih =>
      intro st h
      have hlt : st.buffer.length + 1 < WINDOW_SIZE := by
        simp only [List.length_cons] at h; omega
      have hpush : pushSample st.buffer p.2 = st.buffer ++ [p.2] := by
        unfold pushSample
        rw [if_neg]
        simp only [List.length_append, List.length_cons, List.length_nil]
        omega
      have hstep : handleMotion route p.1 p.2 st = { st with buffer := st.buffer ++ [p.2] } := by
        unfold handleMotion
        rw [hpush, if_pos]
        simp only [List.length_append, List.length_cons, List.length_nil]
        omega
      have hacc := ih { st with buffer := st.buffer ++ [p.2] }
        (by simp only [List.length_append, List.length_cons, List.length_nil] at h ⊢; omega)
      calc runMotion route (p :: rest) st
          = runMotion route rest (handleMotion route p.1 p.2 st) := rfl
        _ = runMotion route rest { st with buffer := st.buffer ++ [p.2] } := by rw [hstep]
        _ = { st with buffer := st.buffer ++ [p.2] ++ rest.map Prod.snd } := hacc
        _ = { st with buffer := st.buffer ++ (p :: rest).map Prod.snd } := by
              simp [List.append_assoc]

theorem handleMotion_gap (route : List Station) (now : Int) (magnitude : ℚ) (st : MotionSt)
    (hlen : (pushSample st.buffer magnitude).length = WINDOW_SIZE)
    (h1 : ¬ windowVariance (pushSample st.buffer magnitude) < STOP_THRESHOLD)
    (h2 : ¬ windowVariance (pushSample st.buffer magnitude) > MOVE_THRESHOLD) :
    handleMotion route now magnitude st =
      { st with buffer := pushSample st.buffer magnitude
                variance := windowVariance (pushSample st.buffer magnitude) } := by
  have h0 : ¬ (pushSample st.buffer magnitude).length < WINDOW_SIZE := by
    rw [hlen]; exact lt_irrefl _
  unfold handleMotion
  simp only [if_neg h0, if_neg h1, if_neg h2]

/-- C1: a pending stop evaluated by the stop-confirmation gate at time `now`
is confirmed — stop counter incremented, `lastConfirmedStop := now`, one
`DetectedStop` appended — iff the stop lasted ≥ `MIN_STOP_MS` and either no
stop was confirmed yet (`lastConfirmedStop = 0`) or the stop began ≥
`MIN_GAP_MS` after the last confirmation; otherwise it is discarded with the
ignored-stop counter incremented and no event. In particular a second
qualifying stop whose start comes < `MIN_GAP_MS` after the previous
confirmation is discarded and never emitted (general conjunct, plus the
concrete two-stop scenario `soonSt`). -/
theorem stop_confirmation_gate (route : List Station) (now : Int) (st : MotionSt) :
    (confirmCond now st →
        confirmStop route now st =
          { st with
              stopCount := st.stopCount + 1
              lastConfirmedStop := now
              pendingStop := false
              detectedStops := st.detectedStops ++
                [{ index := st.stopCount + 1
                   stationName := assignStation route (st.stopCount + 1)
                   time := st.stopStartTime }] }) ∧
      (¬ confirmCond now st →
        confirmStop route now st =
          { st with ignoredStops := st.ignoredStops + 1, pendingStop := false }) ∧
      (st.lastConfirmedStop ≠ 0 → st.stopStartTime - st.lastConfirmedStop < MIN_GAP_MS →
        (confirmStop route now st).detectedStops = st.detectedStops ∧
          (confirmStop route now st).ignoredStops = st.ignoredStops + 1) ∧
      ((170000 : Int) - soonSt.stopStartTime ≥ MIN_STOP_MS ∧
        soonSt.stopStartTime - soonSt.lastConfirmedStop < MIN_GAP_MS ∧
        (confirmStop route5 170000 soonSt).detectedStops.map DetectedStop.index = [1] ∧
        (confirmStop route5 170000 soonSt).ignoredStops = 1) := by
  refine ⟨fun h => ?_, fun h => ?_, fun h1 h2 => ?_, by decide⟩
  · unfold confirmStop
    rw [if_pos h]
  · unfold confirmStop
    rw [if_neg h]
  · have hnc : ¬ confirmCond now st := by
      unfold confirmCond
      rintro ⟨-, h0 | hgap⟩
      · exact h1 h0
      · exact absurd hgap (not_le.2 h2)
    unfold confirmStop
    rw [if_neg hnc]
    exact ⟨rfl, rfl⟩

/-- Witness for C1: a first pending stop (began at 100000 ms, evaluated at
120000 ms, nothing confirmed before) is confirmed with index 1. -/
theorem stop_confirmation_gate_witness :
    confirmStop route5 120000 scenSt1 =
      { scenSt1 with
          stopCount := scenSt1.stopCount + 1
          lastConfirmedStop := 120000
          pendingStop := false
          detectedStops := scenSt1.detectedStops ++
            [{ index := scenSt1.stopCount + 1
               stationName := assignStation route5 (scenSt1.stopCount + 1)
               time := scenSt1.stopStartTime }] } :=
  (stop_confirmation_gate route5 120000 scenSt1).1 (by decide)

/-- C3: a sample stream shorter than the window capacity leaves the motion
classifier in its start state — no transition, no variance update, no event;
the samples are only buffered. -/
theorem motion_warm_up (route : List Station) (samples : List (Int × ℚ))
    (h : samples.length < WINDOW_SIZE) :
    runMotion route samples initMotionSt =
        { initMotionSt with buffer := samples.map Prod.snd } ∧
      (runMotion route samples initMotionSt).state = MotionState.idle ∧
      (runMotion route samples initMotionSt).variance = 0 ∧
      (runMotion route samples initMotionSt).detectedStops = [] ∧
      (runMotion route samples initMotionSt).stateCounter = 0 := by
  have heq := runMotion_short route samples initMotionSt
    (by simpa [initMotionSt] using h)
  rw [heq]
  refine ⟨by simp [initMotionSt], rfl, rfl, rfl, rfl⟩

/-- Witness for C3: three samples are buffered and nothing else changes. -/
theorem motion_warm_up_witness :
    runMotion [] [(0, 1), (50, 2), (100, 3)] initMotionSt =
        { initMotionSt with buffer := [(0, 1), (50, 2), (100, 3)].map Prod.snd } ∧
      (runMotion [] [(0, 1), (50, 2), (100, 3)] initMotionSt).state = MotionState.idle ∧
      (runMotion [] [(0, 1), (50, 2), (100, 3)] initMotionSt).variance = 0 ∧
      (runMotion [] [(0, 1), (50, 2), (100, 3)] initMotionSt).detectedStops = [] ∧
      (runMotion [] [(0, 1), (50, 2), (100, 3)] initMotionSt).stateCounter = 0 :=
  motion_warm_up [] [(0, 1), (50, 2), (100, 3)] (by decide)

/-- C10: processing a sample either keeps the motion state or sets it to
`stopped` or `moving`; `handleMotion` never produces `idle` from a non-idle
state, so within a running session the machine never returns to `idle`. -/
theorem motion_never_returns_to_idle (route : List Station) (now : Int) (magnitude : ℚ)
    (st : MotionSt) :
    (handleMotion route now magnitude st).state = st.state ∨
      (handleMotion route now magnitude st).state = MotionState.stopped ∨
      (handleMotion route now magnitude st).state = MotionState.moving := by
  unfold handleMotion confirmStop
  dsimp only
  split_ifs <;> simp

-- Evaluation of the fixture window's variance (9/25 = 0.36, inside the gap).

theorem exPush : pushSample exSt2.buffer 2 = exBuf60 := by decide

theorem exVar_eval : windowVariance (pushSample exSt2.buffer 2) = 9/25 := by
  rw [exPush]
  simp [windowVariance, exBuf60]
  norm_num

theorem exVar_lower : STOP_THRESHOLD < windowVariance (pushSample exSt2.buffer 2) := by
  rw [exVar_eval]; unfold STOP_THRESHOLD; norm_num

theorem exVar_upper : windowVariance (pushSample exSt2.buffer 2) < MOVE_THRESHOLD := by
  rw [exVar_eval]; unfold MOVE_THRESHOLD; norm_num

theorem exLen : (pushSample exSt2.buffer 2).length = WINDOW_SIZE := by decide

/-- C2 (amended): a sample whose full-window variance lies strictly between
`STOP_THRESHOLD` and `MOVE_THRESHOLD` causes no state transition and leaves
the candidate counter (and every other field except the buffer and the
displayed variance) unchanged — the source's branch chain has no arm for the
gap, so the counter is preserved, not reset. -/
theorem hysteresis_gap_no_action (route : List Station) (now : Int) (magnitude : ℚ)
    (st : MotionSt)
    (hlen : (pushSample st.buffer magnitude).length = WINDOW_SIZE)
    (h1 : STOP_THRESHOLD < windowVariance (pushSample st.buffer magnitude))
    (h2 : windowVariance (pushSample st.buffer magnitude) < MOVE_THRESHOLD) :
    handleMotion route now magnitude st =
        { st with buffer := pushSample st.buffer magnitude
                  variance := windowVariance (pushSample st.buffer magnitude) } ∧
      (handleMotion route now magnitude st).state = st.state ∧
      (handleMotion route now magnitude st).stateCounter = st.stateCounter := by
  have heq := handleMotion_gap route now magnitude st hlen (not_lt.2 h1.le) (not_lt.2 h2.le)
  rw [heq]
  exact ⟨rfl, rfl, rfl⟩

/-- Witness for C2 (amended): in state `moving` with a stopped-candidate
count of 3, a gap-variance sample (0.36) leaves the counter at 3. -/
theorem hysteresis_gap_no_action_witness :
    handleMotion [] 0 2 exSt2 =
        { exSt2 with buffer := pushSample exSt2.buffer 2
                     variance := windowVariance (pushSample exSt2.buffer 2) } ∧
      (handleMotion [] 0 2 exSt2).state = exSt2.state ∧
      (handleMotion [] 0 2 exSt2).stateCounter = exSt2.stateCounter :=
  hysteresis_gap_no_action [] 0 2 exSt2 exLen exVar_lower exVar_upper

/-- Counterexample to C2 as stated: with the window variance 0.36 strictly
between the thresholds, the current state `moving`, and the stopped-candidate
counter at 3, the counter stays 3 — it is not reset to 0 as the claim's
"resets the candidate counter for the state other than the current one"
requires. -/
theorem hysteresis_gap_reset_cex :
    STOP_THRESHOLD < windowVariance (pushSample exSt2.buffer 2) ∧
      windowVariance (pushSample exSt2.buffer 2) < MOVE_THRESHOLD ∧
      exSt2.state = MotionState.moving ∧
      exSt2.stateCounter = 3 ∧
      (handleMotion [] 0 2 exSt2).state = MotionState.moving ∧
      (handleMotion [] 0 2 exSt2).stateCounter = 3 ∧
      (handleMotion [] 0 2 exSt2).stateCounter ≠ 0 := by
  have heq := handleMotion_gap [] 0 2 exSt2 exLen (not_lt.2 exVar_lower.le)
    (not_lt.2 exVar_upper.le)
  rw [heq]
  exact ⟨exVar_lower, exVar_upper, rfl, rfl, rfl, rfl, by decide⟩

/-- C6: a confirmed stop event with ordinal index `i = stopCount + 1` is
assigned `route[i].name` when `i < route.length` and the synthetic
"beyond route" placeholder otherwise (total, never a failure); on the
five-station `route5`, five successive qualifying confirmations are assigned
`Route[1]` ... `Route[4]` and then the placeholder. -/
theorem route_matcher_positional (route : List Station) (now : Int) (st : MotionSt) :
    (∀ (_ : confirmCond now st) (hi : st.stopCount + 1 < route.length),
        (confirmStop route now st).detectedStops =
          st.detectedStops ++
            [{ index := st.stopCount + 1
               stationName := (route.get ⟨st.stopCount + 1, hi⟩).name
               time := st.stopStartTime }]) ∧
      (confirmCond now st → route.length ≤ st.stopCount + 1 →
        (confirmStop route now st).detectedStops =
          st.detectedStops ++
            [{ index := st.stopCount + 1
               stationName := "Stop #" ++ toString (st.stopCount + 2) ++ " (beyond route)"
               time := st.stopStartTime }]) ∧
      (confirmStop route5 520000 scenSt5).detectedStops.map DetectedStop.stationName =
        [r1.name, r2.name, r3.name, r4.name, "Stop #6 (beyond route)"] := by
  refine ⟨fun hc hi => ?_, fun hc hi => ?_, by decide⟩
  · unfold confirmStop
    rw [if_pos hc]
    simp [assignStation, dif_pos hi]
  · unfold confirmStop
    rw [if_pos hc]
    simp [assignStation, dif_neg (not_lt.2 hi)]

/-- Witness for C6: the first confirmed stop on `route5` is assigned
`route5[1]`. -/
theorem route_matcher_positional_witness :
    (confirmStop route5 120000 scenSt1).detectedStops =
      scenSt1.detectedStops ++
        [{ index := scenSt1.stopCount + 1
           stationName := (route5.get ⟨scenSt1.stopCount + 1, by decide⟩).name
           time := scenSt1.stopStartTime }] :=
  (route_matcher_positional route5 120000 scenSt1).1 (by decide) (by decide)

-- Chime helper lemmas.

theorem chimeTick_activate (now : Int) (avgDb : ℚ) (st : ChimeSt)
    (hact : st.chimeActive = false) (he : avgDb > CHIME_THRESHOLD_DB) :
    chimeTick now avgDb st = { st with chimeStart := now, chimeActive := true } := by
  unfold chimeTick
  rw [if_pos he, if_pos hact]

theorem chimeTick_emit (now : Int) (avgDb : ℚ) (st : ChimeSt)
    (hact : st.chimeActive = true) (he : avgDb > CHIME_THRESHOLD_DB)
    (hdur : now - st.chimeStart ≥ CHIME_MIN_DURATION_MS) :
    chimeTick now avgDb st =
      { st with chimeCount := st.chimeCount + 1
                chimeEvents := st.chimeEvents ++ [now]
                chimeActive := false } := by
  unfold chimeTick
  rw [if_pos he, if_neg (by simp [hact]), if_pos hdur]

theorem chime_hold (st : ChimeSt) :
    ∀ ticks : List (Int × ℚ), st.chimeActive = true →
      (∀ p ∈ ticks, p.2 > CHIME_THRESHOLD_DB ∧ p.1 - st.chimeStart < CHIME_MIN_DURATION_MS) →
      runChime ticks st = st := by
  intro ticks
  induction ticks with
  | nil => intro _ _; rfl
  | cons p rest ih =>
      intro hact h
      obtain ⟨hp, hrest⟩ := List.forall_mem_cons.1 h
      have hstep : chimeTick p.1 p.2 st = st := by
        unfold chimeTick
        rw [if_pos hp.1, if_neg (by simp [hact]), if_neg (not_le.2 hp.2)]
      calc runChime (p :: rest) st = runChime rest (chimeTick p.1 p.2 st) := rfl
        _ = runChime rest st := by rw [hstep]
        _ = st := ih hact hrest

/-- One full activation: from an inactive state, a first high tick at `t0`,
high ticks staying within 500 ms of `t0`, then a high tick at `tk` with
`tk - t0 ≥ 500 ms`, emit exactly one chime event (at `tk`) and deactivate. -/
theorem chime_activation (st : ChimeSt) (t0 : Int) (e0 : ℚ) (mids : List (Int × ℚ))
    (tk : Int) (ek : ℚ) (hact : st.chimeActive = false) (he0 : e0 > CHIME_THRESHOLD_DB)
    (hm : ∀ p ∈ mids, p.2 > CHIME_THRESHOLD_DB ∧ p.1 - t0 < CHIME_MIN_DURATION_MS)
    (hek : ek > CHIME_THRESHOLD_DB) (htk : tk - t0 ≥ CHIME_MIN_DURATION_MS) :
    runChime ((t0, e0) :: mids ++ [(tk, ek)]) st =
      { st with chimeStart := t0
                chimeActive := false
                chimeCount := st.chimeCount + 1
                chimeEvents := st.chimeEvents ++ [tk] } := by
  have h0 : chimeTick t0 e0 st = { st with chimeStart := t0, chimeActive := true } :=
    chimeTick_activate t0 e0 st hact he0
  have hhold : runChime mids { st with chimeStart := t0, chimeActive := true } =
      { st with chimeStart := t0, chimeActive := true } :=
    chime_hold _ mids rfl hm
  have hlast : chimeTick tk ek { st with chimeStart := t0, chimeActive := true } =
      { st with chimeStart := t0
                chimeActive := false
                chimeCount := st.chimeCount + 1
                chimeEvents := st.chimeEvents ++ [tk] } := by
    rw [chimeTick_emit tk ek _ rfl hek htk]
  calc runChime ((t0, e0) :: mids ++ [(tk, ek)]) st
      = runChime (mids ++ [(tk, ek)]) (chimeTick t0 e0 st) := rfl
    _ = runChime (mids ++ [(tk, ek)]) { st with chimeStart := t0, chimeActive := true } := by
        rw [h0]
    _ = runChime [(tk, ek)] (runChime mids { st with chimeStart := t0, chimeActive := true }) := by
        unfold runChime
        rw [List.foldl_append]
    _ = runChime [(tk, ek)] { st with chimeStart := t0, chimeActive := true } := by rw [hhold]
    _ = chimeTick tk ek { st with chimeStart := t0, chimeActive := true } := rfl
    _ = _ := hlast

/-- An interrupted activation: a first high tick at `t0`, high ticks within
500 ms of `t0`, then a tick at or below threshold — no event, flag cleared. -/
theorem chime_interrupted (st : ChimeSt) (t0 : Int) (e0 : ℚ) (mids : List (Int × ℚ))
    (tl : Int) (el : ℚ) (hact : st.chimeActive = false) (he0 : e0 > CHIME_THRESHOLD_DB)
    (hm : ∀ p ∈ mids, p.2 > CHIME_THRESHOLD_DB ∧ p.1 - t0 < CHIME_MIN_DURATION_MS)
    (hel : ¬ el > CHIME_THRESHOLD_DB) :
    runChime ((t0, e0) :: mids ++ [(tl, el)]) st =
      { st with chimeStart := t0, chimeActive := false } := by
  have h0 : chimeTick t0 e0 st = { st with chimeStart := t0, chimeActive := true } :=
    chimeTick_activate t0 e0 st hact he0
  have hhold : runChime mids { st with chimeStart := t0, chimeActive := true } =
      { st with chimeStart := t0, chimeActive := true } :=
    chime_hold _ mids rfl hm
  have hlast : chimeTick tl el { st with chimeStart := t0, chimeActive := true } =
      { st with chimeStart := t0, chimeActive := false } := by
    unfold chimeTick
    rw [if_neg hel]
  calc runChime ((t0, e0) :: mids ++ [(tl, el)]) st
      = runChime (mids ++ [(tl, el)]) (chimeTick t0 e0 st) := rfl
    _ = runChime (mids ++ [(tl, el)]) { st with chimeStart := t0, chimeActive := true } := by
        rw [h0]
    _ = runChime [(tl, el)] (runChime mids { st with chimeStart := t0, chimeActive := true }) := by
        unfold runChime
        rw [List.foldl_append]
    _ = runChime [(tl, el)] { st with chimeStart := t0, chimeActive := true } := by rw [hhold]
    _ = chimeTick tl el { st with chimeStart := t0, chimeActive := true } := rfl
    _ = _ := hlast

/-- C5: for one chime activation (first tick with band energy above
`CHIME_THRESHOLD_DB` while inactive, at `t0`): if the energy drops to or
below threshold before 500 ms have elapsed, no chime event is emitted and the
active flag is cleared; if a tick at `tk` with `tk - t0 ≥ 500 ms` still finds
the energy above threshold, exactly one chime event is emitted for the
activation (and the activation ends). -/
theorem chime_activation_outcome (st : ChimeSt) (t0 : Int) (e0 : ℚ)
    (mids : List (Int × ℚ)) (hact : st.chimeActive = false)
    (he0 : e0 > CHIME_THRESHOLD_DB)
    (hm : ∀ p ∈ mids, p.2 > CHIME_THRESHOLD_DB ∧ p.1 - t0 < CHIME_MIN_DURATION_MS) :
    (∀ (tk : Int) (ek : ℚ), ek > CHIME_THRESHOLD_DB → tk - t0 ≥ CHIME_MIN_DURATION_MS →
        (runChime ((t0, e0) :: mids ++ [(tk, ek)]) st).chimeEvents = st.chimeEvents ++ [tk] ∧
          (runChime ((t0, e0) :: mids ++ [(tk, ek)]) st).chimeCount = st.chimeCount + 1 ∧
          (runChime ((t0, e0) :: mids ++ [(tk, ek)]) st).chimeActive = false) ∧
      (∀ (tl : Int) (el : ℚ), ¬ el > CHIME_THRESHOLD_DB →
        (runChime ((t0, e0) :: mids ++ [(tl, el)]) st).chimeEvents = st.chimeEvents ∧
          (runChime ((t0, e0) :: mids ++ [(tl, el)]) st).chimeCount = st.chimeCount ∧
          (runChime ((t0, e0) :: mids ++ [(tl, el)]) st).chimeActive = false) := by
  constructor
  · intro tk ek hek htk
    rw [chime_activation st t0 e0 mids tk ek hact he0 hm hek htk]
    exact ⟨rfl, rfl, rfl⟩
  · intro tl el hel
    rw [chime_interrupted st t0 e0 mids tl el hact he0 hm hel]
    exact ⟨rfl, rfl, rfl⟩

/-- Witness for C5: an activation at 1000 ms held through 1400 ms emits one
event when still high at 1500 ms; the same activation interrupted at 1600 ms
by a −40 dBFS sample emits nothing. -/
theorem chime_activation_outcome_witness :
    ((runChime ((1000, -10) :: [(1200, -10), (1400, -10)] ++ [(1500, -10)]) initChimeSt).chimeEvents =
        initChimeSt.chimeEvents ++ [1500] ∧
      (runChime ((1000, -10) :: [(1200, -10), (1400, -10)] ++ [(1500, -10)]) initChimeSt).chimeCount =
        initChimeSt.chimeCount + 1 ∧
      (runChime ((1000, -10) :: [(1200, -10), (1400, -10)] ++ [(1500, -10)]) initChimeSt).chimeActive =
        false) ∧
      ((runChime ((1000, -10) :: [(1200, -10), (1400, -10)] ++ [(1600, -40)]) initChimeSt).chimeEvents =
          initChimeSt.chimeEvents ∧
        (runChime ((1000, -10) :: [(1200, -10), (1400, -10)] ++ [(1600, -40)]) initChimeSt).chimeCount =
          initChimeSt.chimeCount ∧
        (runChime ((1000, -10) :: [(1200, -10), (1400, -10)] ++ [(1600, -40)]) initChimeSt).chimeActive =
          false) :=
  ⟨(chime_activation_outcome initChimeSt 1000 (-10) [(1200, -10), (1400, -10)] rfl
      (by decide) (by decide)).1 1500 (-10) (by decide) (by decide),
    (chime_activation_outcome initChimeSt 1000 (-10) [(1200, -10), (1400, -10)] rfl
      (by decide) (by decide)).2 1600 (-40) (by decide)⟩

/-- Counterexample to C4 as stated: with the band energy at −10 dBFS (above
threshold) on every tick, the detector emits a first chime at 500 ms and a
second at 1100 ms — only 600 ms after the first, well inside the claimed
2000 ms cooldown. The `setTimeout(..., 2000)` in the source only clears the
`chimeDetected` display flag and suppresses nothing. -/
theorem chime_cooldown_cex :
    (runChime cexTicks initChimeSt).chimeEvents = [500, 1100] ∧
      (runChime cexTicks initChimeSt).chimeCount = 2 ∧
      cexTicks.all (fun p => decide (p.2 > CHIME_THRESHOLD_DB)) = true ∧
      ((1100 : Int) - 500 < 2000) := by decide

/-- C4 (amended): after emitting a confirmed chime event the detector only
clears its active flag — there is no detection cooldown. If the energy stays
above threshold, the very next tick (at any time `t1`, however soon) starts a
new activation, and a second chime event is emitted at the first tick at
least 500 ms after `t1`, even when that is within 2000 ms of the first
event; the 2000 ms timer only resets the display flash. -/
theorem chime_no_cooldown (st : ChimeSt) (now : Int) (e : ℚ)
    (hact : st.chimeActive = true) (he : e > CHIME_THRESHOLD_DB)
    (hdur : now - st.chimeStart ≥ CHIME_MIN_DURATION_MS) :
    chimeTick now e st =
        { st with chimeCount := st.chimeCount + 1
                  chimeEvents := st.chimeEvents ++ [now]
                  chimeActive := false } ∧
      (∀ (t1 : Int) (e1 : ℚ) (mids : List (Int × ℚ)) (tk : Int) (ek : ℚ),
        e1 > CHIME_THRESHOLD_DB →
        (∀ p ∈ mids, p.2 > CHIME_THRESHOLD_DB ∧ p.1 - t1 < CHIME_MIN_DURATION_MS) →
        ek > CHIME_THRESHOLD_DB → tk - t1 ≥ CHIME_MIN_DURATION_MS →
        (runChime ((t1, e1) :: mids ++ [(tk, ek)]) (chimeTick now e st)).chimeEvents =
          st.chimeEvents ++ [now, tk]) := by
  have hemit := chimeTick_emit now e st hact he hdur
  refine ⟨hemit, fun t1 e1 mids tk ek he1 hm hek htk => ?_⟩
  rw [hemit, chime_activation _ t1 e1 mids tk ek rfl he1 hm hek htk]
  simp

/-- Witness for C4 (amended): a first chime emitted at 500 ms, the signal
still high, re-activation at 600 ms and a second event at 1100 ms. -/
theorem chime_no_cooldown_witness :
    chimeTick 500 (-10) (⟨0, true, 0, []⟩ : ChimeSt) =
        { (⟨0, true, 0, []⟩ : ChimeSt) with
            chimeCount := (⟨0, true, 0, []⟩ : ChimeSt).chimeCount + 1
            chimeEvents := (⟨0, true, 0, []⟩ : ChimeSt).chimeEvents ++ [500]
            chimeActive := false } ∧
      (runChime ((600, -10) :: [] ++ [(1100, -10)])
          (chimeTick 500 (-10) (⟨0, true, 0, []⟩ : ChimeSt))).chimeEvents =
        (⟨0, true, 0, []⟩ : ChimeSt).chimeEvents ++ [500, 1100] :=
  ⟨(chime_no_cooldown (⟨0, true, 0, []⟩ : ChimeSt) 500 (-10) rfl (by decide) (by decide)).1,
    (chime_no_cooldown (⟨0, true, 0, []⟩ : ChimeSt) 500 (-10) rfl (by decide) (by decide)).2
      600 (-10) [] 1100 (-10) (by decide) (by decide) (by decide) (by decide)⟩

-- Speech helper lemmas: the matched-set and the match list stay in sync,
-- and the match list never acquires a duplicate.

theorem onSpeechResult_inv (ks : List StationKeywords) (st : SpeechSt) (frag : String)
    (h1 : st.speechMatches.Nodup)
    (h2 : ∀ x, x ∈ st.matchedStations ↔ x ∈ st.speechMatches) :
    (onSpeechResult ks st frag).speechMatches.Nodup ∧
      (∀ x, x ∈ (onSpeechResult ks st frag).matchedStations ↔
        x ∈ (onSpeechResult ks st frag).speechMatches) := by
  unfold onSpeechResult
  cases hm : matchStationInText frag ks with
  | none => exact ⟨h1, h2⟩
  | some m =>
      dsimp only
      by_cases hc : st.matchedStations.contains m.id
      · rw [if_pos hc]
        exact ⟨h1, h2⟩
      · rw [if_neg hc]
        have hnotmem : m.id ∉ st.matchedStations := by
          intro hmem
          exact hc (List.elem_eq_true_of_mem hmem)
        have hnotmatch : m.id ∉ st.speechMatches := fun hmem => hnotmem ((h2 m.id).2 hmem)
        constructor
        · simp only [List.nodup_append, List.nodup_cons, List.nodup_nil]
          exact ⟨h1, by simp, by simpa [List.disjoint_singleton] using hnotmatch⟩
        · intro x
          simp only [List.mem_append, List.mem_singleton]
          exact or_congr (h2 x) Iff.rfl

theorem runSpeech_inv (ks : List StationKeywords) :
    ∀ (frags : List String) (st : SpeechSt), st.speechMatches.Nodup →
      (∀ x, x ∈ st.matchedStations ↔ x ∈ st.speechMatches) →
      (runSpeech ks frags st).speechMatches.Nodup ∧
        (∀ x, x ∈ (runSpeech ks frags st).matchedStations ↔
          x ∈ (runSpeech ks frags st).speechMatches) := by
  intro frags
  induction frags with
  | nil => intro st h1 h2; exact ⟨h1, h2⟩
  | cons f rest ih =>
      intro st h1 h2
      have hstep := onSpeechResult_inv ks st f h1 h2
      exact ih (onSpeechResult ks st f) hstep.1 hstep.2

/-- C9: speech matching is idempotent per station per session — an id already
in the matched-station set is never appended again (its multiplicity in both
lists is unchanged by any further fragment), and consequently, over any
fragment sequence from session start, the list of speech matches holds each
station id at most once. -/
theorem speech_idempotent (ks : List StationKeywords) (frags : List String) :
    (runSpeech ks frags initSpeechSt).speechMatches.Nodup ∧
      (∀ (st : SpeechSt) (frag sid : String), sid ∈ st.matchedStations →
        (onSpeechResult ks st frag).speechMatches.count sid = st.speechMatches.count sid ∧
          (onSpeechResult ks st frag).matchedStations.count sid =
            st.matchedStations.count sid) := by
  constructor
  · exact (runSpeech_inv ks frags initSpeechSt List.nodup_nil (by simp [initSpeechSt])).1
  · intro st frag sid hsid
    unfold onSpeechResult
    cases hm : matchStationInText frag ks with
    | none => exact ⟨rfl, rfl⟩
    | some m =>
        dsimp only
        by_cases hc : st.matchedStations.contains m.id
        · rw [if_pos hc]
          exact ⟨rfl, rfl⟩
        · rw [if_neg hc]
          have hnotmem : m.id ∉ st.matchedStations := by
            intro hmem
            exact hc (List.elem_eq_true_of_mem hmem)
          have hne : m.id ≠ sid := fun h => hnotmem (h ▸ hsid)
          constructor <;> simp [List.count_append, List.count_singleton, if_neg hne]

/-- Witness for C9: two identical fragments from session start give a
duplicate-free match list, and a fragment arriving when "a" was already
matched leaves the counts of "a" unchanged. -/
theorem speech_idempotent_witness :
    (runSpeech exKeywords ["alpha gamma", "alpha gamma"] initSpeechSt).speechMatches.Nodup ∧
      ((onSpeechResult exKeywords (⟨["a"], ["a"]⟩ : SpeechSt) "alpha gamma").speechMatches.count "a" =
          (⟨["a"], ["a"]⟩ : SpeechSt).speechMatches.count "a" ∧
        (onSpeechResult exKeywords (⟨["a"], ["a"]⟩ : SpeechSt) "alpha gamma").matchedStations.count "a" =
          (⟨["a"], ["a"]⟩ : SpeechSt).matchedStations.count "a") :=
  ⟨(speech_idempotent exKeywords ["alpha gamma", "alpha gamma"]).1,
    (speech_idempotent exKeywords ["alpha gamma", "alpha gamma"]).2
      (⟨["a"], ["a"]⟩ : SpeechSt) "alpha gamma" "a" (by decide)⟩

-- Matcher helper lemmas.

theorem matchStationLoop_eq (lower : List Char) :
    ∀ l : List StationKeywords,
      matchStationLoop lower l = l.find? (fun s =>
        jsIncludes lower (lowerChars s.name.toList) ||
          s.keywords.any (fun kw => decide (kw.length ≥ 4) && jsIncludes lower kw)) := by
  intro l
  induction l with
  | nil => rfl
  | cons s rest ih =>
      unfold matchStationLoop
      cases h1 : jsIncludes lower (lowerChars s.name.toList) with
      | true =>
          rw [if_pos rfl, List.find?_cons_of_pos _ (by rw [h1]; rfl)]
      | false =>
          cases h2 : s.keywords.any (fun kw => decide (kw.length ≥ 4) && jsIncludes lower kw) with
          | true =>
              rw [if_neg Bool.false_ne_true, if_pos rfl,
                List.find?_cons_of_pos _ (by rw [h1, h2]; rfl)]
          | false =>
              rw [if_neg Bool.false_ne_true, if_neg Bool.false_ne_true,
                List.find?_cons_of_neg _ (by rw [h1, h2]; exact Bool.false_ne_true), ih]

theorem mem_insertByNameLen {x a : StationKeywords} :
    ∀ {l : List StationKeywords}, x ∈ insertByNameLen a l ↔ x = a ∨ x ∈ l := by
  intro l
  induction l with
  | nil => simp [insertByNameLen]
  | cons b rest ih =>
      unfold insertByNameLen
      by_cases h : a.name.length ≥ b.name.length
      · rw [if_pos h]
        simp
      · rw [if_neg h]
        simp only [List.mem_cons, ih]
        tauto

theorem insertByNameLen_sorted (a : StationKeywords) :
    ∀ l : List StationKeywords,
      l.Sorted (fun p q : StationKeywords => q.name.length ≤ p.name.length) →
      (insertByNameLen a l).Sorted (fun p q : StationKeywords => q.name.length ≤ p.name.length) := by
  intro l
  induction l with
  | nil => intro _; simp [insertByNameLen]
  | cons b rest ih =>
      intro h
      rw [List.sorted_cons] at h
      unfold insertByNameLen
      by_cases hab : a.name.length ≥ b.name.length
      · rw [if_pos hab]
        rw [List.sorted_cons]
        refine ⟨?_, List.sorted_cons.2 h⟩
        intro y hy
        rcases List.mem_cons.1 hy with rfl | hy
        · exact hab
        · exact le_trans (h.1 y hy) hab
      · rw [if_neg hab]
        rw [List.sorted_cons]
        refine ⟨?_, ih h.2⟩
        intro y hy
        rcases mem_insertByNameLen.1 hy with rfl | hy
        · exact le_of_lt (lt_of_not_le hab)
        · exact h.1 y hy

theorem insertByNameLen_perm (a : StationKeywords) :
    ∀ l : List StationKeywords, List.Perm (insertByNameLen a l) (a :: l) := by
  intro l
  induction l with
  | nil => simp [insertByNameLen]
  | cons b rest ih =>
      unfold insertByNameLen
      by_cases hab : a.name.length ≥ b.name.length
      · rw [if_pos hab]
      · rw [if_neg hab]
        exact (ih.cons b).trans (List.Perm.swap a b rest)

theorem sortByNameLenDesc_sorted (l : List StationKeywords) :
    (sortByNameLenDesc l).Sorted (fun p q : StationKeywords => q.name.length ≤ p.name.length) := by
  induction l with
  | nil => simp [sortByNameLenDesc]
  | cons a rest ih => exact insertByNameLen_sorted a _ ih

theorem sortByNameLenDesc_perm (l : List StationKeywords) :
    List.Perm (sortByNameLenDesc l) l := by
  induction l with
  | nil => simp [sortByNameLenDesc]
  | cons a rest ih => exact (insertByNameLen_perm a _).trans (ih.cons a)

/-- C8 (amended): the matcher makes a single pass over the stations in
decreasing name-length order (a stable sort of the keyword list), testing for
each station its full lowercased name and then its ≥ 4-character keywords
before moving to the next station; the first station matching either way
wins. It does not finish the full-name policy over all stations before
falling back to keywords, so a keyword match on a longer-named station beats
a full-name match on a shorter-named one. -/
theorem matcher_single_interleaved_pass (text : String) (ks : List StationKeywords) :
    matchStationInText text ks =
        (sortByNameLenDesc ks).find? (fun s =>
          jsIncludes (lowerChars text.toList) (lowerChars s.name.toList) ||
            s.keywords.any (fun kw =>
              decide (kw.length ≥ 4) && jsIncludes (lowerChars text.toList) kw)) ∧
      (sortByNameLenDesc ks).Sorted
        (fun p q : StationKeywords => q.name.length ≤ p.name.length) ∧
      List.Perm (sortByNameLenDesc ks) ks :=
  ⟨matchStationLoop_eq (lowerChars text.toList) (sortByNameLenDesc ks),
    sortByNameLenDesc_sorted ks, sortByNameLenDesc_perm ks⟩

/-- Counterexample to C8 as stated: in the fragment "alpha gamma", the full
name of station "g" ("Gamma") does occur, while the full name of station "a"
("Alpha Beta") does not; a full-name-first policy would return "g", but the
matcher returns "a", which matched only through its keyword "alpha" — the
keyword fallback of a longer-named station is tried before the full-name
match of a shorter-named one. -/
theorem matcher_policy_cex :
    (matchStationInText "alpha gamma" exKeywords).map StationKeywords.id = some "a" ∧
      jsIncludes (lowerChars "alpha gamma".toList) (lowerChars stG.name.toList) = true ∧
      jsIncludes (lowerChars "alpha gamma".toList) (lowerChars stA.name.toList) = false ∧
      exKeywords.map StationKeywords.id = ["a", "g"] := by decide

-- Route-construction helper lemmas.

theorem findIndex_some (p : Station → Bool) :
    ∀ (l : List Station) (i : Nat), findIndex p l = some i →
      ∃ hi : i < l.length, p (l.get ⟨i, hi⟩) = true := by
  intro l
  induction l with
  | nil => intro i h; exact Option.noConfusion h
  | cons s rest ih =>
      intro i h
      unfold findIndex at h
      by_cases hp : p s
      · rw [if_pos hp] at h
        cases h
        exact ⟨by simp, hp⟩
      · rw [if_neg hp] at h
        cases hfi : findIndex p rest with
        | none => rw [hfi] at h; exact Option.noConfusion h
        | some j =>
            rw [hfi] at h
            simp only [Option.map_some'] at h
            obtain ⟨hj, hpj⟩ := ih j hfi
            cases h
            refine ⟨by simpa using Nat.succ_lt_succ hj, ?_⟩
            rw [List.get_cons_succ]
            exact hpj

theorem findIndex_of_mem (p : Station → Bool) :
    ∀ l : List Station, (∃ s ∈ l, p s = true) → ∃ i, findIndex p l = some i := by
  intro l
  induction l with
  | nil => rintro ⟨s, hs, -⟩; exact absurd hs (List.not_mem_nil s)
  | cons a rest ih =>
      rintro ⟨s, hs, hp⟩
      by_cases ha : p a
      · exact ⟨0, by unfold findIndex; rw [if_pos ha]⟩
      · rcases List.mem_cons.1 hs with rfl | hs
        · exact absurd hp ha
        · obtain ⟨j, hj⟩ := ih ⟨s, hs, hp⟩
          exact ⟨j + 1, by unfold findIndex; rw [if_neg ha, hj]; rfl⟩

theorem jsSlice_head? (l : List Station) (a b : Nat) (ha : a < l.length) (hab : a ≤ b) :
    (jsSlice l a (b + 1)).head? = some (l.get ⟨a, ha⟩) := by
  unfold jsSlice
  rw [List.head?_eq_getElem?, List.getElem?_take, if_pos (by omega), List.getElem?_drop,
    Nat.add_zero, List.getElem?_eq_getElem ha]
  rfl

theorem jsSlice_getLast? (l : List Station) (a b : Nat) (hb : b < l.length) (hab : a ≤ b) :
    (jsSlice l a (b + 1)).getLast? = some (l.get ⟨b, hb⟩) := by
  unfold jsSlice
  have hlen : ((l.drop a).take (b + 1 - a)).length = b + 1 - a := by
    rw [List.length_take, List.length_drop]
    omega
  rw [List.getLast?_eq_getElem?, hlen, List.getElem?_take, if_pos (by omega),
    List.getElem?_drop]
  have he : a + (b + 1 - a - 1) = b := by omega
  rw [he, List.getElem?_eq_getElem hb]
  rfl

theorem jsSlice_decomp (l : List Station) (a b : Nat) (hab : a ≤ b) :
    l = l.take a ++ jsSlice l a b ++ l.drop b := by
  unfold jsSlice
  have h1 := List.take_add l a (b - a)
  have he : a + (b - a) = b := by omega
  rw [he] at h1
  calc l = l.take b ++ l.drop b := (List.take_append_drop b l).symm
    _ = (l.take a ++ (l.drop a).take (b - a)) ++ l.drop b := by rw [← h1]
    _ = l.take a ++ (l.drop a).take (b - a) ++ l.drop b := by rw [List.append_assoc]

/-- C7: for distinct origin and destination that both exist on the line, the
constructed route is non-empty, starts at the origin, ends at the
destination, and is a contiguous run of the line's station list — taken in
line order exactly when the origin's position precedes the destination's, and
as a run of the reversed line otherwise; when either endpoint is missing the
route is empty. -/
theorem route_construction (stations : List Station) (lineId originId destinationId : String) :
    ((∃ s ∈ stations.filter (fun s => s.line == lineId), s.id = originId) →
      (∃ s ∈ stations.filter (fun s => s.line == lineId), s.id = destinationId) →
      originId ≠ destinationId →
      getStationsOnRoute stations lineId originId destinationId ≠ [] ∧
        (getStationsOnRoute stations lineId originId destinationId).head?.map Station.id =
          some originId ∧
        (getStationsOnRoute stations lineId originId destinationId).getLast?.map Station.id =
          some destinationId ∧
        ∃ oi di,
          findIndex (fun s => s.id == originId)
              (stations.filter (fun s => s.line == lineId)) = some oi ∧
            findIndex (fun s => s.id == destinationId)
              (stations.filter (fun s => s.line == lineId)) = some di ∧
            ((oi < di ∧ ∃ pre suf, stations.filter (fun s => s.line == lineId) =
                pre ++ getStationsOnRoute stations lineId originId destinationId ++ suf) ∨
              (di < oi ∧ ∃ pre suf, (stations.filter (fun s => s.line == lineId)).reverse =
                pre ++ getStationsOnRoute stations lineId originId destinationId ++ suf))) ∧
      ((findIndex (fun s => s.id == originId)
            (stations.filter (fun s => s.line == lineId)) = none ∨
          findIndex (fun s => s.id == destinationId)
            (stations.filter (fun s => s.line == lineId)) = none) →
        getStationsOnRoute stations lineId originId destinationId = []) := by
  constructor
  · intro hO hD hne
    obtain ⟨oi, hoi⟩ := findIndex_of_mem (fun s => s.id == originId)
      (stations.filter (fun s => s.line == lineId)) (by
        obtain ⟨s, hs, hid⟩ := hO
        exact ⟨s, hs, by simp [hid]⟩)
    obtain ⟨di, hdi⟩ := findIndex_of_mem (fun s => s.id == destinationId)
      (stations.filter (fun s => s.line == lineId)) (by
        obtain ⟨s, hs, hid⟩ := hD
        exact ⟨s, hs, by simp [hid]⟩)
    obtain ⟨hoilt, hpo⟩ := findIndex_some _ _ _ hoi
    obtain ⟨dilt, hpd⟩ := findIndex_some _ _ _ hdi
    have hido : ((stations.filter (fun s => s.line == lineId)).get ⟨oi, hoilt⟩).id =
        originId := by
      simpa using hpo
    have hidd : ((stations.filter (fun s => s.line == lineId)).get ⟨di, dilt⟩).id =
        destinationId := by
      simpa using hpd
    have hnei : oi ≠ di := by
      intro he
      apply hne
      rw [← hido, ← hidd]
      subst he
      rfl
    have hroute : getStationsOnRoute stations lineId originId destinationId =
        if oi < di then jsSlice (stations.filter (fun s => s.line == lineId)) oi (di + 1)
        else (jsSlice (stations.filter (fun s => s.line == lineId)) di (oi + 1)).reverse := by
      unfold getStationsOnRoute
      dsimp only
      rw [hoi, hdi]
    by_cases hlt : oi < di
    · rw [hroute, if_pos hlt]
      have hh := jsSlice_head? _ oi di hoilt (le_of_lt hlt)
      have hl := jsSlice_getLast? _ oi di dilt (le_of_lt hlt)
      refine ⟨?_, ?_, ?_, oi, di, hoi, hdi, Or.inl ⟨hlt, ?_⟩⟩
      · intro hnil
        rw [hnil] at hh
        exact Option.noConfusion hh
      · rw [hh, Option.map_some', hido]
      · rw [hl, Option.map_some', hidd]
      · exact ⟨_, _, jsSlice_decomp _ oi (di + 1) (by omega)⟩
    · have hgt : di < oi := by omega
      rw [hroute, if_neg hlt]
      have hh := jsSlice_getLast? _ di oi hoilt (le_of_lt hgt)
      have hl := jsSlice_head? _ di oi dilt (le_of_lt hgt)
      refine ⟨?_, ?_, ?_, oi, di, hoi, hdi, Or.inr ⟨hgt, ?_⟩⟩
      · intro hnil
        rw [List.reverse_eq_nil_iff] at hnil
        rw [hnil] at hl
        exact Option.noConfusion hl
      · rw [List.head?_reverse, hh, Option.map_some', hido]
      · rw [List.getLast?_reverse, hl, Option.map_some', hidd]
      · have hdec := jsSlice_decomp (stations.filter (fun s => s.line == lineId)) di (oi + 1)
          (by omega)
        refine ⟨((stations.filter (fun s => s.line == lineId)).drop (oi + 1)).reverse,
          ((stations.filter (fun s => s.line == lineId)).take di).reverse, ?_⟩
        conv_lhs => rw [hdec]
        simp [List.reverse_append, List.append_assoc]
  · intro h
    unfold getStationsOnRoute
    dsimp only
    rcases h with h | h
    · rw [h]
    · rw [h]
      cases findIndex (fun s => s.id == originId)
          (stations.filter (fun s => s.line == lineId)) <;> rfl

/-- Witness for C7: on the five-station line `route5`, the route from "s4"
back to "s0" is non-empty, origin-first, destination-last, and a contiguous
run of the reversed line. -/
theorem route_construction_witness :
    getStationsOnRoute route5 "L1" "s4" "s0" ≠ [] ∧
      (getStationsOnRoute route5 "L1" "s4" "s0").head?.map Station.id = some "s4" ∧
      (getStationsOnRoute route5 "L1" "s4" "s0").getLast?.map Station.id = some "s0" ∧
      ∃ oi di,
        findIndex (fun s => s.id == "s4") (route5.filter (fun s => s.line == "L1")) = some oi ∧
          findIndex (fun s => s.id == "s0") (route5.filter (fun s => s.line == "L1")) = some di ∧
          ((oi < di ∧ ∃ pre suf, route5.filter (fun s => s.line == "L1") =
              pre ++ getStationsOnRoute route5 "L1" "s4" "s0" ++ suf) ∨
            (di < oi ∧ ∃ pre suf, (route5.filter (fun s => s.line == "L1")).reverse =
              pre ++ getStationsOnRoute route5 "L1" "s4" "s0" ++ suf)) :=
  (route_construction route5 "L1" "s4" "s0").1 (by decide) (by decide) (by decide)

end TransportLogger
